import Mathlib

/-!
Shallow embedding of the retry/backoff core in `core/connection.go`.

The file models the error wrapper structs `PermanentError` / `TransientError` with their
`Error` / `Unwrap` / `Is` methods, and the two entry points `Retry` and `RetryWithData`.
Both entry points build a closure around the caller's operation (only the one in
`RetryWithData` installs a `recover()`), map a returned `PermanentError` into a
permanent mark for the backoff executor, and hand the closure to the executor of the
third-party backoff library.  The executor itself is not part of the repository sources,
so it is modelled from the specification's contract (`backoffLoop` below).

An operation is modelled as the sequence of outcomes of its successive invocations
(`ℕ → OpResult T`); time is modelled by recording the sequence of sleeps the executor
performs, in milliseconds (`minDelay` is in milliseconds in the source).  The executor's
loop can be unbounded (`maxTries = 0`), so it is unrolled with explicit fuel: one unit of
fuel per invocation of the operation, and a `running` state when the fuel is exhausted
before the loop returns.
-/

namespace Connection

/-- Go `error` values occurring in `core/connection.go`: the wrapper structs
`PermanentError{Inner}` and `TransientError{Inner}`, and plain errors built with
`fmt.Errorf`. -/
inductive GoError : Type where
  | permanentError (inner : GoError)
  | transientError (inner : GoError)
  | errorf (msg : String)
  deriving DecidableEq, Repr

/-- the `Error()` methods: both wrapper structs return `e.Inner.Error()`; a plain error
returns its message. -/
def GoError.message : GoError → String
  | .permanentError inner => inner.message
  | .transientError inner => inner.message
  | .errorf msg => msg

/-- the `Unwrap()` methods: both wrapper structs return `e.Inner`; a plain `fmt.Errorf`
error has no `Unwrap` method. -/
def GoError.unwrap : GoError → Option GoError
  | .permanentError inner => some inner
  | .transientError inner => some inner
  | .errorf _ => none

/-- the `Is` methods: `PermanentError.Is(err)` is the type assertion
`_, ok := err.(PermanentError); return ok`, ignoring the receiver's inner error, and
`TransientError.Is(err)` likewise for `TransientError`; plain errors define no `Is`
method (false here). -/
def GoError.goIs : GoError → GoError → Bool
  | .permanentError _, .permanentError _ => true
  | .transientError _, .transientError _ => true
  | _, _ => false

/-- whether the value-level type assertion `err.(PermanentError)` used inside `Retry` and
`RetryWithData` succeeds on this error. -/
def GoError.isPermanentShaped : GoError → Bool
  | .permanentError _ => true
  | _ => false

/-- outcome of one invocation of the Go operation: a normal return carrying a value or an
error, or a panic whose payload either is an `error` or is some other value (rendered as a
string by `fmt.Errorf("panicked: %v", ...)` when recovered). -/
inductive OpResult (T : Type) : Type where
  | ok (val : T)
  | err (e : GoError)
  | panicErr (e : GoError)
  | panicVal (msg : String)
  deriving DecidableEq, Repr

/-- a panic payload as it unwinds: an `error` value or some other value shown as a
string. -/
inductive PanicValue : Type where
  | errValue (e : GoError)
  | otherValue (msg : String)
  deriving DecidableEq, Repr

/-- result of one call of the closure `f` that `Retry` / `RetryWithData` hand to the
backoff executor: success, an error marked permanent via `backoff.Permanent` (the
executor must stop at once and surface the carried error), an ordinary error (the
executor may retry), or a panic unwinding uncaught through `f`. -/
inductive FResult (T : Type) : Type where
  | ok (val : T)
  | backoffPermanent (e : GoError)
  | err (e : GoError)
  | panicOut (p : PanicValue)
  deriving DecidableEq, Repr

/-- final value of a retry call as seen by the caller: the operation's value, or the
error surfaced. -/
inductive RetResult (T : Type) : Type where
  | value (v : T)
  | failure (e : GoError)
  deriving DecidableEq, Repr

/-- observable state of a fuel-bounded unrolling of a retry call: returned after some
number of invocations having slept the recorded delays, still looping when the fuel ran
out, or unwound by an uncaught panic. -/
inductive RunState (T : Type) : Type where
  | done (res : RetResult T) (invocations : ℕ) (delays : List ℚ)
  | running (invocations : ℕ) (delays : List ℚ)
  | panicked (invocations : ℕ) (p : PanicValue)
  deriving DecidableEq, Repr

/-- number of invocations of the operation performed so far. -/
def RunState.invocations {T : Type} : RunState T → ℕ
  | .done _ n _ => n
  | .running n _ => n
  | .panicked n _ => n

/-- whether the retry call has returned to its caller. -/
def RunState.isDone {T : Type} : RunState T → Bool
  | .done _ _ _ => true
  | _ => false

/-- whether an uncaught panic unwound out of the retry call. -/
def RunState.isPanicked {T : Type} : RunState T → Bool
  | .panicked _ _ => true
  | _ => false

/-- the closure built inside `RetryWithData`: runs the operation under a deferred
`recover()` that converts a panic into a `TransientError` (wrapping the payload when it
is an `error`, else wrapping `fmt.Errorf("panicked: %v", payload)`), and converts a
returned `PermanentError` into `backoff.Permanent(perm.Inner)`. -/
def wrapWithRecover {T : Type} (functionToRetry : ℕ → OpResult T) (i : ℕ) : FResult T :=
  match functionToRetry i with
  | .ok v => .ok v
  | .err (.permanentError inner) => .backoffPermanent inner
  | .err e => .err e
  | .panicErr p => .err (.transientError p)
  | .panicVal m => .err (.transientError (.errorf ("panicked: " ++ m)))

/-- the closure built inside `Retry`: it installs no `recover()`, so a panic unwinds
through it; a returned `PermanentError` is converted into
`backoff.Permanent(perm.Inner)`. -/
def wrapNoRecover {T : Type} (functionToRetry : ℕ → OpResult T) (i : ℕ) : FResult T :=
  match functionToRetry i with
  | .ok v => .ok v
  | .err (.permanentError inner) => .backoffPermanent inner
  | .err e => .err e
  | .panicErr p => .panicOut (.errValue p)
  | .panicVal m => .panicOut (.otherValue m)

/-- Modelled from the spec: the exponential-backoff executor of the third-party backoff
library (`backoff.Retry` / `backoff.RetryWithData` over an exponential backoff with
randomization factor 0, initial interval `minDelay` milliseconds and multiplier `factor`,
wrapped in `WithMaxRetries` when `maxTries > 0`), whose sources are not part of this
repository.  Contract per the spec: on success return the value; on an error marked
permanent stop at once and surface the carried (inner) error; on any other error, if the
retry budget remains (`maxTries = 0` means unbounded) sleep `delay`, multiply `delay` by
`factor`, and invoke again, else return that last error unchanged; no jitter is applied.
`fuel` bounds the unrolling so the function is total; `i` counts the invocations already
made and `ds` records the sleeps already performed, in order. -/
def backoffLoop {T : Type} (f : ℕ → FResult T) (factor : ℚ) (maxTries : ℕ) :
    ℕ → ℚ → List ℚ → ℕ → RunState T
  | i, _, ds, 0 => .running i ds
  | i, delay, ds, fuel + 1 =>
    match f i with
    | .ok v => .done (.value v) (i + 1) ds
    | .backoffPermanent e => .done (.failure e) (i + 1) ds
    | .panicOut p => .panicked (i + 1) p
    | .err e =>
      if maxTries = 0 ∨ i < maxTries then
        backoffLoop f factor maxTries (i + 1) (delay * factor) (ds ++ [delay]) fuel
      else
        .done (.failure e) (i + 1) ds

/-- `RetryWithData(functionToRetry, minDelay, factor, maxTries)` from
`core/connection.go`, with `fuel` bounding the unrolling of the (possibly unbounded)
backoff loop.  The operation is given as the sequence of outcomes of its successive
invocations. -/
def RetryWithData {T : Type} (functionToRetry : ℕ → OpResult T) (minDelay : ℕ)
    (factor : ℚ) (maxTries : ℕ) (fuel : ℕ) : RunState T :=
  backoffLoop (wrapWithRecover functionToRetry) factor maxTries 0 (minDelay : ℚ) [] fuel

/-- `Retry(functionToRetry, minDelay, factor, maxTries)` from `core/connection.go`: the
operation returns only an error (`Unit` on success), and the closure handed to the
backoff executor installs no panic recovery. -/
def Retry (functionToRetry : ℕ → OpResult Unit) (minDelay : ℕ)
    (factor : ℚ) (maxTries : ℕ) (fuel : ℕ) : RunState Unit :=
  backoffLoop (wrapNoRecover functionToRetry) factor maxTries 0 (minDelay : ℚ) [] fuel

/-- `const MinDelay = 1000` from `core/connection.go`. -/
def MinDelay : ℕ := 1000

/-- `const RetryFactor = 2` from `core/connection.go`. -/
def RetryFactor : ℚ := 2

/-- `const NumRetries = 3` from `core/connection.go`. -/
def NumRetries : ℕ := 3

/-- the invocation outcome is an error return (not a panic) that the value-level
`PermanentError` type assertion does not match, so the retry layer classifies it
transient. -/
def OpResult.failsTransientlyNoPanic {T : Type} : OpResult T → Bool
  | .err (.permanentError _) => false
  | .err _ => true
  | _ => false

/-- the deterministic delay schedule `d, d·factor, d·factor², …` of length `k`, in
milliseconds. -/
def expDelays (d : ℕ) (factor : ℚ) (k : ℕ) : List ℚ :=
  (List.range k).map (fun j => (d : ℚ) * factor ^ j)

/-- an operation outcome that `failsTransientlyNoPanic` is mapped by the `RetryWithData`
closure to an ordinary (retryable) error. -/
theorem wrapWithRecover_err {T : Type} (op : ℕ → OpResult T) (i : ℕ)
    (h : (op i).failsTransientlyNoPanic = true) :
    ∃ e, wrapWithRecover op i = FResult.err e := by
  cases hop : op i with
  | ok v => simp [hop, OpResult.failsTransientlyNoPanic] at h
  | err e =>
    cases e with
    | permanentError x => simp [hop, OpResult.failsTransientlyNoPanic] at h
    | transientError x =>
      exact ⟨GoError.transientError x, by simp [wrapWithRecover, hop]⟩
    | errorf m =>
      exact ⟨GoError.errorf m, by simp [wrapWithRecover, hop]⟩
  | panicErr p => simp [hop, OpResult.failsTransientlyNoPanic] at h
  | panicVal m => simp [hop, OpResult.failsTransientlyNoPanic] at h

/-- an operation outcome that `failsTransientlyNoPanic` is mapped by the `Retry` closure
to an ordinary (retryable) error. -/
theorem wrapNoRecover_err {T : Type} (op : ℕ → OpResult T) (i : ℕ)
    (h : (op i).failsTransientlyNoPanic = true) :
    ∃ e, wrapNoRecover op i = FResult.err e := by
  cases hop : op i with
  | ok v => simp [hop, OpResult.failsTransientlyNoPanic] at h
  | err e =>
    cases e with
    | permanentError x => simp [hop, OpResult.failsTransientlyNoPanic] at h
    | transientError x =>
      exact ⟨GoError.transientError x, by simp [wrapNoRecover, hop]⟩
    | errorf m =>
      exact ⟨GoError.errorf m, by simp [wrapNoRecover, hop]⟩
  | panicErr p => simp [hop, OpResult.failsTransientlyNoPanic] at h
  | panicVal m => simp [hop, OpResult.failsTransientlyNoPanic] at h

/-- the `RetryWithData` closure never lets a panic escape. -/
theorem wrapWithRecover_ne_panicOut {T : Type} (op : ℕ → OpResult T) (i : ℕ)
    (p : PanicValue) : wrapWithRecover op i ≠ FResult.panicOut p := by
  cases hop : op i with
  | ok v => simp [wrapWithRecover, hop]
  | err e => cases e <;> simp [wrapWithRecover, hop]
  | panicErr q => simp [wrapWithRecover, hop]
  | panicVal m => simp [wrapWithRecover, hop]

/-- stepping lemma: `k` consecutive retryable failures advance the executor by `k`
invocations, multiplying the delay by `factor` each time and sleeping the recorded
schedule, provided the retry budget allows each of those retries. -/
theorem backoffLoop_transient_steps {T : Type} (f : ℕ → FResult T) (factor : ℚ)
    (maxTries : ℕ) (k : ℕ) :
    ∀ (i : ℕ) (delay : ℚ) (ds : List ℚ) (fuel : ℕ),
      (∀ j, j < k → ∃ e, f (i + j) = FResult.err e) →
      (∀ j, j < k → (maxTries = 0 ∨ i + j < maxTries)) →
      backoffLoop f factor maxTries i delay ds (fuel + k) =
        backoffLoop f factor maxTries (i + k) (delay * factor ^ k)
          (ds ++ (List.range k).map (fun j => delay * factor ^ j)) fuel := by
  induction k with
  | zero =>
    intro i delay ds fuel _ _
    simp
  | succ k ih =>
    intro i delay ds fuel herr hlt
    obtain ⟨e, he⟩ := herr 0 (Nat.succ_pos k)
    have he0 : f i = FResult.err e := by simpa using he
    have hg : maxTries = 0 ∨ i < maxTries := by simpa using hlt 0 (Nat.succ_pos k)
    have hfuel : fuel + (k + 1) = (fuel + k) + 1 := by omega
    have hstep :
        backoffLoop f factor maxTries i delay ds (fuel + (k + 1)) =
          backoffLoop f factor maxTries (i + 1) (delay * factor) (ds ++ [delay])
            (fuel + k) := by
      rw [hfuel]
      simp only [backoffLoop, he0]
      rw [if_pos hg]
    rw [hstep]
    have ih2 := ih (i + 1) (delay * factor) (ds ++ [delay]) fuel
      (fun j hj => by
        have := herr (j + 1) (Nat.succ_lt_succ hj)
        have harith : i + (j + 1) = i + 1 + j := by omega
        rw [harith] at this
        exact this)
      (fun j hj => by
        have := hlt (j + 1) (Nat.succ_lt_succ hj)
        have harith : i + (j + 1) = i + 1 + j := by omega
        rw [harith] at this
        exact this)
    rw [ih2]
    have e1 : i + 1 + k = i + (k + 1) := by omega
    have e2 : delay * factor * factor ^ k = delay * factor ^ (k + 1) := by ring
    have e3 : (ds ++ [delay]) ++ (List.range k).map (fun j => delay * factor * factor ^ j)
        = ds ++ (List.range (k + 1)).map (fun j => delay * factor ^ j) := by
      rw [List.append_assoc]
      have e4 : [delay] ++ (List.range k).map (fun j => delay * factor * factor ^ j)
          = (List.range (k + 1)).map (fun j => delay * factor ^ j) := by
        rw [List.range_succ_eq_map, List.map_cons, List.map_map]
        have e5 : ((fun j => delay * factor ^ j) ∘ Nat.succ)
            = (fun j => delay * factor * factor ^ j) := by
          funext j
          simp [Function.comp, pow_succ]
          ring
        rw [e5]
        simp
      rw [e4]
    rw [e1, e2, e3]

/-- the executor has performed at least `i` invocations when started at invocation
index `i`. -/
theorem backoffLoop_invocations_ge {T : Type} (f : ℕ → FResult T) (factor : ℚ)
    (maxTries : ℕ) :
    ∀ (fuel i : ℕ) (delay : ℚ) (ds : List ℚ),
      i ≤ (backoffLoop f factor maxTries i delay ds fuel).invocations := by
  intro fuel
  induction fuel with
  | zero =>
    intro i delay ds
    simp [backoffLoop, RunState.invocations]
  | succ fuel ih =>
    intro i delay ds
    cases hf : f i with
    | ok v => simp [backoffLoop, hf, RunState.invocations]
    | backoffPermanent e => simp [backoffLoop, hf, RunState.invocations]
    | panicOut p => simp [backoffLoop, hf, RunState.invocations]
    | err e =>
      simp only [backoffLoop, hf]
      by_cases hg : maxTries = 0 ∨ i < maxTries
      · rw [if_pos hg]
        have := ih (i + 1) (delay * factor) (ds ++ [delay])
        omega
      · rw [if_neg hg]
        simp [RunState.invocations]

/-- with at least one unit of fuel, the executor performs invocation `i`, so at least
`i + 1` invocations happen in total. -/
theorem backoffLoop_invocations_ge_succ {T : Type} (f : ℕ → FResult T) (factor : ℚ)
    (maxTries : ℕ) (fuel i : ℕ) (delay : ℚ) (ds : List ℚ) :
    i + 1 ≤ (backoffLoop f factor maxTries i delay ds (fuel + 1)).invocations := by
  cases hf : f i with
  | ok v => simp [backoffLoop, hf, RunState.invocations]
  | backoffPermanent e => simp [backoffLoop, hf, RunState.invocations]
  | panicOut p => simp [backoffLoop, hf, RunState.invocations]
  | err e =>
    simp only [backoffLoop, hf]
    by_cases hg : maxTries = 0 ∨ i < maxTries
    · rw [if_pos hg]
      exact backoffLoop_invocations_ge f factor maxTries fuel (i + 1)
        (delay * factor) (ds ++ [delay])
    · rw [if_neg hg]
      simp [RunState.invocations]

/-- with a positive bounded budget `maxTries`, the executor never exceeds
`maxTries + 1` invocations. -/
theorem backoffLoop_invocations_le {T : Type} (f : ℕ → FResult T) (factor : ℚ)
    (maxTries : ℕ) (hpos : 0 < maxTries) :
    ∀ (fuel i : ℕ) (delay : ℚ) (ds : List ℚ), i ≤ maxTries →
      (backoffLoop f factor maxTries i delay ds fuel).invocations ≤ maxTries + 1 := by
  intro fuel
  induction fuel with
  | zero =>
    intro i delay ds hi
    simp only [backoffLoop, RunState.invocations]
    omega
  | succ fuel ih =>
    intro i delay ds hi
    cases hf : f i with
    | ok v =>
      simp only [backoffLoop, hf, RunState.invocations]
      omega
    | backoffPermanent e =>
      simp only [backoffLoop, hf, RunState.invocations]
      omega
    | panicOut p =>
      simp only [backoffLoop, hf, RunState.invocations]
      omega
    | err e =>
      simp only [backoffLoop, hf]
      by_cases hg : maxTries = 0 ∨ i < maxTries
      · rw [if_pos hg]
        have hlt : i < maxTries := by omega
        exact ih (i + 1) (delay * factor) (ds ++ [delay]) (by omega)
      · rw [if_neg hg]
        simp only [RunState.invocations]
        omega

/-- if the closure never produces an escaping panic, neither does the executor. -/
theorem backoffLoop_no_panic {T : Type} (f : ℕ → FResult T) (factor : ℚ)
    (maxTries : ℕ) (hf : ∀ i p, f i ≠ FResult.panicOut p) :
    ∀ (fuel i : ℕ) (delay : ℚ) (ds : List ℚ),
      (backoffLoop f factor maxTries i delay ds fuel).isPanicked = false := by
  intro fuel
  induction fuel with
  | zero =>
    intro i delay ds
    simp [backoffLoop, RunState.isPanicked]
  | succ fuel ih =>
    intro i delay ds
    cases hfi : f i with
    | ok v => simp [backoffLoop, hfi, RunState.isPanicked]
    | backoffPermanent e => simp [backoffLoop, hfi, RunState.isPanicked]
    | panicOut p => exact absurd hfi (hf i p)
    | err e =>
      simp only [backoffLoop, hfi]
      by_cases hg : maxTries = 0 ∨ i < maxTries
      · rw [if_pos hg]
        exact ih (i + 1) (delay * factor) (ds ++ [delay])
      · rw [if_neg hg]
        simp [RunState.isPanicked]

/-- a non-panicking error return that the `PermanentError` assertion does not match
passes through the `RetryWithData` closure unchanged. -/
theorem wrapWithRecover_err_eq {T : Type} (op : ℕ → OpResult T) (i : ℕ) (e : GoError)
    (hop : op i = OpResult.err e) (hnp : e.isPermanentShaped = false) :
    wrapWithRecover op i = FResult.err e := by
  cases e with
  | permanentError x => simp [GoError.isPermanentShaped] at hnp
  | transientError x => simp [wrapWithRecover, hop]
  | errorf m => simp [wrapWithRecover, hop]

/-- a non-panicking error return that the `PermanentError` assertion does not match
passes through the `Retry` closure unchanged. -/
theorem wrapNoRecover_err_eq {T : Type} (op : ℕ → OpResult T) (i : ℕ) (e : GoError)
    (hop : op i = OpResult.err e) (hnp : e.isPermanentShaped = false) :
    wrapNoRecover op i = FResult.err e := by
  cases e with
  | permanentError x => simp [GoError.isPermanentShaped] at hnp
  | transientError x => simp [wrapNoRecover, hop]
  | errorf m => simp [wrapNoRecover, hop]

/-- C1: an operation returning a `PermanentError` on its first invocation is invoked
exactly once by `RetryWithData` and by `Retry`, regardless of `maxTries`: the permanent
classification short-circuits all remaining backoff attempts (no sleep is performed) and
the wrapped inner error surfaces. -/
theorem claim_C1_permanent_short_circuit {T : Type} (op : ℕ → OpResult T)
    (opU : ℕ → OpResult Unit) (minDelay : ℕ) (factor : ℚ) (maxTries fuel : ℕ)
    (e eU : GoError)
    (h : op 0 = OpResult.err (GoError.permanentError e))
    (hU : opU 0 = OpResult.err (GoError.permanentError eU)) :
    RetryWithData op minDelay factor maxTries (fuel + 1) =
      RunState.done (RetResult.failure e) 1 [] ∧
    Retry opU minDelay factor maxTries (fuel + 1) =
      RunState.done (RetResult.failure eU) 1 [] := by
  constructor
  · simp [RetryWithData, backoffLoop, wrapWithRecover, h]
  · simp [Retry, backoffLoop, wrapNoRecover, hU]

/-- C1 witness at a concrete operation and the source's default policy constants. -/
theorem claim_C1_witness :
    RetryWithData (T := Nat)
        (fun _ => OpResult.err (GoError.permanentError (GoError.errorf "p")))
        MinDelay RetryFactor NumRetries (9 + 1) =
      RunState.done (RetResult.failure (GoError.errorf "p")) 1 [] ∧
    Retry (fun _ => OpResult.err (GoError.permanentError (GoError.errorf "q")))
        MinDelay RetryFactor NumRetries (9 + 1) =
      RunState.done (RetResult.failure (GoError.errorf "q")) 1 [] :=
  claim_C1_permanent_short_circuit _ _ MinDelay RetryFactor NumRetries 9 _ _ rfl rfl

/-- C2 counterexample: a panic raised inside the operation handed to `Retry` is not
caught — it unwinds out of the retry core to the caller after the first invocation —
whereas the claim asserts both `Retry` and `RetryWithData` convert panics into transient
errors. -/
theorem claim_C2_counterexample :
    Retry (fun _ => OpResult.panicVal "boom") 1000 2 3 10 =
    RunState.panicked 1 (PanicValue.otherValue "boom") := by
  rfl

/-- C2 amended: only `RetryWithData` installs the deferred `recover()` — no call of
`RetryWithData` ever lets a panic escape — while `Retry` installs none, so an operation
that panics on its first invocation unwinds out of `Retry` to the caller. -/
theorem claim_C2_amended_panic_recovery :
    (∀ (T : Type) (op : ℕ → OpResult T) (minDelay : ℕ) (factor : ℚ)
        (maxTries fuel : ℕ),
      (RetryWithData op minDelay factor maxTries fuel).isPanicked = false) ∧
    (∀ (opU : ℕ → OpResult Unit) (minDelay : ℕ) (factor : ℚ) (maxTries fuel : ℕ)
        (m : String), opU 0 = OpResult.panicVal m →
      Retry opU minDelay factor maxTries (fuel + 1) =
        RunState.panicked 1 (PanicValue.otherValue m)) := by
  constructor
  · intro T op minDelay factor maxTries fuel
    exact backoffLoop_no_panic _ factor maxTries
      (fun i p => wrapWithRecover_ne_panicOut op i p) fuel 0 _ []
  · intro opU minDelay factor maxTries fuel m h
    simp [Retry, backoffLoop, wrapNoRecover, h]

/-- C2 witness at concrete operations and policies. -/
theorem claim_C2_witness :
    (RetryWithData (T := Nat) (fun _ => OpResult.panicVal "x") 1 2 3 5).isPanicked
        = false ∧
    Retry (fun _ => OpResult.panicVal "y") 1 2 3 (4 + 1) =
      RunState.panicked 1 (PanicValue.otherValue "y") :=
  ⟨claim_C2_amended_panic_recovery.1 Nat (fun _ => OpResult.panicVal "x") 1 2 3 5,
   claim_C2_amended_panic_recovery.2 (fun _ => OpResult.panicVal "y") 1 2 3 4 "y" rfl⟩

/-- C3 (spec-modelled backoff executor): with `maxTries = 0` and an operation that fails
transiently on every invocation, `RetryWithData` and `Retry` never stop of their own
accord: after any number `fuel` of unrolled invocations they are still looping, having
slept the full deterministic schedule so far. -/
theorem claim_C3_unbounded_retry {T : Type} (op : ℕ → OpResult T)
    (opU : ℕ → OpResult Unit) (minDelay : ℕ) (factor : ℚ) (fuel : ℕ)
    (h : ∀ j, (op j).failsTransientlyNoPanic = true)
    (hU : ∀ j, (opU j).failsTransientlyNoPanic = true) :
    RetryWithData op minDelay factor 0 fuel =
      RunState.running fuel (expDelays minDelay factor fuel) ∧
    Retry opU minDelay factor 0 fuel =
      RunState.running fuel (expDelays minDelay factor fuel) := by
  constructor
  · have step := backoffLoop_transient_steps (wrapWithRecover op) factor 0 fuel 0
      (minDelay : ℚ) [] 0
      (fun j _ => by simpa using wrapWithRecover_err op j (h j))
      (fun j _ => Or.inl rfl)
    simpa [RetryWithData, backoffLoop, expDelays] using step
  · have step := backoffLoop_transient_steps (wrapNoRecover opU) factor 0 fuel 0
      (minDelay : ℚ) [] 0
      (fun j _ => by simpa using wrapNoRecover_err opU j (hU j))
      (fun j _ => Or.inl rfl)
    simpa [Retry, backoffLoop, expDelays] using step

/-- C3 witness: seven unrolled invocations of an always-transiently-failing operation
under `maxTries = 0` leave both entry points still looping. -/
theorem claim_C3_witness :
    RetryWithData (T := Nat) (fun _ => OpResult.err (GoError.errorf "t")) 1000 2 0 7 =
      RunState.running 7 (expDelays 1000 2 7) ∧
    Retry (fun _ => OpResult.err (GoError.errorf "u")) 1000 2 0 7 =
      RunState.running 7 (expDelays 1000 2 7) :=
  claim_C3_unbounded_retry _ _ 1000 2 7 (fun _ => rfl) (fun _ => rfl)

/-- C4 (spec-modelled backoff executor): an operation failing transiently exactly
`k < n` times and then succeeding makes `RetryWithData` and `Retry` return the success
value after exactly `k + 1` invocations, the i-th inter-attempt sleep being exactly
`d·factor^(i-1)` milliseconds, with no jitter. -/
theorem claim_C4_deterministic_schedule {T : Type} (op : ℕ → OpResult T)
    (opU : ℕ → OpResult Unit) (d : ℕ) (f : ℚ) (n k fuel : ℕ) (v : T)
    (hk : k < n)
    (h : ∀ j, j < k → (op j).failsTransientlyNoPanic = true)
    (hs : op k = OpResult.ok v)
    (hU : ∀ j, j < k → (opU j).failsTransientlyNoPanic = true)
    (hsU : opU k = OpResult.ok ()) :
    RetryWithData op d f n (fuel + k + 1) =
      RunState.done (RetResult.value v) (k + 1) (expDelays d f k) ∧
    Retry opU d f n (fuel + k + 1) =
      RunState.done (RetResult.value ()) (k + 1) (expDelays d f k) := by
  have harith : fuel + k + 1 = (fuel + 1) + k := by omega
  constructor
  · have step := backoffLoop_transient_steps (wrapWithRecover op) f n k 0 (d : ℚ) []
      (fuel + 1)
      (fun j hj => by simpa using wrapWithRecover_err op j (h j hj))
      (fun j hj => Or.inr (by omega))
    have hwrap : wrapWithRecover op k = FResult.ok v := by
      simp [wrapWithRecover, hs]
    rw [RetryWithData, harith, step]
    simp [backoffLoop, hwrap, expDelays]
  · have step := backoffLoop_transient_steps (wrapNoRecover opU) f n k 0 (d : ℚ) []
      (fuel + 1)
      (fun j hj => by simpa using wrapNoRecover_err opU j (hU j hj))
      (fun j hj => Or.inr (by omega))
    have hwrap : wrapNoRecover opU k = FResult.ok () := by
      simp [wrapNoRecover, hsU]
    rw [Retry, harith, step]
    simp [backoffLoop, hwrap, expDelays]

/-- C4 witness: two transient failures then success under `maxTries = 3` give three
invocations and the sleeps `1000, 2000`. -/
theorem claim_C4_witness :
    RetryWithData
        (fun j => if j < 2 then OpResult.err (GoError.errorf "t")
          else OpResult.ok (7 : ℕ)) 1000 2 3 (0 + 2 + 1) =
      RunState.done (RetResult.value 7) (2 + 1) (expDelays 1000 2 2) ∧
    Retry (fun j => if j < 2 then OpResult.err (GoError.errorf "u")
          else OpResult.ok ()) 1000 2 3 (0 + 2 + 1) =
      RunState.done (RetResult.value ()) (2 + 1) (expDelays 1000 2 2) :=
  claim_C4_deterministic_schedule _ _ 1000 2 3 2 0 7 (by decide)
    (fun j hj => by
      rcases j with _ | _ | j
      · decide
      · decide
      · omega)
    (by decide)
    (fun j hj => by
      rcases j with _ | _ | j
      · decide
      · decide
      · omega)
    (by decide)

/-- C5: an error return that the value-level `PermanentError` assertion does not match
(a plain error, or a `TransientError`) does not surface immediately while budget remains:
both `RetryWithData` and `Retry` go on to invoke the operation at least a second time. -/
theorem claim_C5_default_transient {T : Type} (op : ℕ → OpResult T)
    (opU : ℕ → OpResult Unit) (minDelay : ℕ) (factor : ℚ) (n fuel : ℕ)
    (hn : 0 < n)
    (h : (op 0).failsTransientlyNoPanic = true)
    (hU : (opU 0).failsTransientlyNoPanic = true) :
    2 ≤ (RetryWithData op minDelay factor n (fuel + 1 + 1)).invocations ∧
    2 ≤ (Retry opU minDelay factor n (fuel + 1 + 1)).invocations := by
  constructor
  · obtain ⟨e, he⟩ := wrapWithRecover_err op 0 h
    simp only [RetryWithData, backoffLoop, he]
    rw [if_pos (Or.inr hn)]
    exact backoffLoop_invocations_ge_succ _ factor n fuel (0 + 1)
      ((minDelay : ℚ) * factor) ([] ++ [(minDelay : ℚ)])
  · obtain ⟨e, he⟩ := wrapNoRecover_err opU 0 hU
    simp only [Retry, backoffLoop, he]
    rw [if_pos (Or.inr hn)]
    exact backoffLoop_invocations_ge_succ _ factor n fuel (0 + 1)
      ((minDelay : ℚ) * factor) ([] ++ [(minDelay : ℚ)])

/-- C5 witness: an unclassified plain error on the first invocation leads to a second
invocation under budget `maxTries = 3`. -/
theorem claim_C5_witness :
    2 ≤ (RetryWithData (T := Nat) (fun _ => OpResult.err (GoError.errorf "t"))
          1000 2 3 (1 + 1 + 1)).invocations ∧
    2 ≤ (Retry (fun _ => OpResult.err (GoError.transientError (GoError.errorf "u")))
          1000 2 3 (1 + 1 + 1)).invocations :=
  claim_C5_default_transient _ _ 1000 2 3 1 (by decide) rfl rfl

/-- C6 counterexample: with `maxTries = 1` and an operation that panics on every
invocation, `RetryWithData` surfaces the panic-converted error still wearing its
`TransientError` wrapper — the caller does receive a transient wrapper value, contrary
to the claim that the wrapper is always removed. -/
theorem claim_C6_counterexample :
    RetryWithData (T := Nat) (fun _ => OpResult.panicVal "boom") 1000 2 1 10 =
      RunState.done
        (RetResult.failure (GoError.transientError (GoError.errorf "panicked: boom")))
        2 [((1000 : ℕ) : ℚ)] := by
  decide

/-- C6 amended (spec-modelled backoff executor): after `n` transient failures with
budget `maxTries = n > 0`, the final invocation decides what the caller receives: a
success value is returned as is; a returned `PermanentError` surfaces with its wrapper
removed; any other error return surfaces exactly as produced (in particular a
`TransientError` wrapper is not removed); a panic surfaces as a `TransientError`-wrapped
error; and `Retry` surfaces a non-permanent last error unchanged likewise. -/
theorem claim_C6_amended_result_surface {T : Type} (op : ℕ → OpResult T)
    (d : ℕ) (f : ℚ) (n fuel : ℕ) (hn : 0 < n)
    (h : ∀ j, j < n → (op j).failsTransientlyNoPanic = true) :
    (∀ v, op n = OpResult.ok v →
      RetryWithData op d f n (fuel + n + 1) =
        RunState.done (RetResult.value v) (n + 1) (expDelays d f n)) ∧
    (∀ e, op n = OpResult.err (GoError.permanentError e) →
      RetryWithData op d f n (fuel + n + 1) =
        RunState.done (RetResult.failure e) (n + 1) (expDelays d f n)) ∧
    (∀ e, op n = OpResult.err e → e.isPermanentShaped = false →
      RetryWithData op d f n (fuel + n + 1) =
        RunState.done (RetResult.failure e) (n + 1) (expDelays d f n)) ∧
    (∀ m, op n = OpResult.panicVal m →
      RetryWithData op d f n (fuel + n + 1) =
        RunState.done
          (RetResult.failure
            (GoError.transientError (GoError.errorf ("panicked: " ++ m))))
          (n + 1) (expDelays d f n)) ∧
    (∀ (opU : ℕ → OpResult Unit) e,
        (∀ j, j < n → (opU j).failsTransientlyNoPanic = true) →
        opU n = OpResult.err e → e.isPermanentShaped = false →
      Retry opU d f n (fuel + n + 1) =
        RunState.done (RetResult.failure e) (n + 1) (expDelays d f n)) := by
  have harith : fuel + n + 1 = (fuel + 1) + n := by omega
  have hng : ¬ (n = 0 ∨ n < n) := by omega
  have step := backoffLoop_transient_steps (wrapWithRecover op) f n n 0 (d : ℚ) []
    (fuel + 1)
    (fun j hj => by simpa using wrapWithRecover_err op j (h j hj))
    (fun j hj => Or.inr (by omega))
  refine ⟨?_, ?_, ?_, ?_, ?_⟩
  · intro v hv
    have hwrap : wrapWithRecover op n = FResult.ok v := by
      simp [wrapWithRecover, hv]
    rw [RetryWithData, harith, step]
    simp [backoffLoop, hwrap, expDelays]
  · intro e hv
    have hwrap : wrapWithRecover op n = FResult.backoffPermanent e := by
      simp [wrapWithRecover, hv]
    rw [RetryWithData, harith, step]
    simp [backoffLoop, hwrap, expDelays]
  · intro e hv hnp
    have hwrap := wrapWithRecover_err_eq op n e hv hnp
    rw [RetryWithData, harith, step]
    simp [backoffLoop, hwrap, hng, expDelays]
    intro h0
    exact absurd h0 (by omega)
  · intro m hv
    have hwrap : wrapWithRecover op n =
        FResult.err (GoError.transientError (GoError.errorf ("panicked: " ++ m))) := by
      simp [wrapWithRecover, hv]
    rw [RetryWithData, harith, step]
    simp [backoffLoop, hwrap, hng, expDelays]
    intro h0
    exact absurd h0 (by omega)
  · intro opU e hUt hv hnp
    have stepU := backoffLoop_transient_steps (wrapNoRecover opU) f n n 0 (d : ℚ) []
      (fuel + 1)
      (fun j hj => by simpa using wrapNoRecover_err opU j (hUt j hj))
      (fun j hj => Or.inr (by omega))
    have hwrap := wrapNoRecover_err_eq opU n e hv hnp
    rw [Retry, harith, stepU]
    simp [backoffLoop, hwrap, hng, expDelays]
    intro h0
    exact absurd h0 (by omega)

/-- C6 witness: a transient failure then a panic under `maxTries = 1` surface a
`TransientError`-wrapped error to the caller after two invocations. -/
theorem claim_C6_witness :
    RetryWithData
        (fun j => if j = 0 then (OpResult.err (GoError.errorf "t") : OpResult Nat)
          else OpResult.panicVal "boom") 1000 2 1 (0 + 1 + 1) =
      RunState.done
        (RetResult.failure (GoError.transientError (GoError.errorf "panicked: boom")))
        (1 + 1) (expDelays 1000 2 1) :=
  (claim_C6_amended_result_surface _ 1000 2 1 0 (by decide)
      (fun j hj => by
        rcases j with _ | j
        · decide
        · omega)).2.2.2.1 "boom" (by decide)

/-- C8: `Retry` and `RetryWithData` hold no state across calls: the outcome is a
function only of the call's arguments, so two calls whose operations behave identically
invocation by invocation produce identical outcomes under the same policy. -/
theorem claim_C8_stateless :
    (∀ (T : Type) (op1 op2 : ℕ → OpResult T) (minDelay : ℕ) (factor : ℚ)
        (maxTries fuel : ℕ), (∀ i, op1 i = op2 i) →
      RetryWithData op1 minDelay factor maxTries fuel =
        RetryWithData op2 minDelay factor maxTries fuel) ∧
    (∀ (op1 op2 : ℕ → OpResult Unit) (minDelay : ℕ) (factor : ℚ) (maxTries fuel : ℕ),
        (∀ i, op1 i = op2 i) →
      Retry op1 minDelay factor maxTries fuel =
        Retry op2 minDelay factor maxTries fuel) := by
  constructor
  · intro T op1 op2 minDelay factor maxTries fuel hop
    rw [funext hop]
  · intro op1 op2 minDelay factor maxTries fuel hop
    rw [funext hop]

/-- C8 witness at two syntactically distinct but pointwise equal operations. -/
theorem claim_C8_witness :
    RetryWithData (fun _ => OpResult.ok (1 + 1 : ℕ)) 1000 2 3 5 =
      RetryWithData (fun _ => OpResult.ok (2 : ℕ)) 1000 2 3 5 ∧
    Retry (fun _ => OpResult.ok ()) 1000 2 3 5 =
      Retry (fun i => if i < i + 1 then OpResult.ok () else OpResult.err (.errorf "e"))
        1000 2 3 5 :=
  ⟨claim_C8_stateless.1 ℕ _ _ 1000 2 3 5 (fun _ => by decide),
   claim_C8_stateless.2 _ _ 1000 2 3 5 (fun i => by simp)⟩

/-- C9: error-class matching is purely type-based — `PermanentError{x}.Is(e)` holds
exactly when `e` is itself a `PermanentError`, and `TransientError{x}.Is(e)` exactly
when `e` is a `TransientError`, regardless of the inner errors on either side; `Unwrap`
returns the inner error unchanged and `Error` returns the inner error's message. -/
theorem claim_C9_error_methods (x e : GoError) :
    ((GoError.permanentError x).goIs e = true ↔ ∃ y, e = GoError.permanentError y) ∧
    ((GoError.transientError x).goIs e = true ↔ ∃ y, e = GoError.transientError y) ∧
    (GoError.permanentError x).unwrap = some x ∧
    (GoError.transientError x).unwrap = some x ∧
    (GoError.permanentError x).message = x.message ∧
    (GoError.transientError x).message = x.message := by
  refine ⟨?_, ?_, rfl, rfl, rfl, rfl⟩
  · cases e <;> simp [GoError.goIs]
  · cases e <;> simp [GoError.goIs]

/-- C10: with a positive bounded budget `maxTries = n > 0`, `RetryWithData` and `Retry`
invoke the operation at most `n + 1` times in total — one initial attempt plus at most
`n` retries — whatever the operation does and however far the loop is unrolled. -/
theorem claim_C10_bounded_invocations {T : Type} (op : ℕ → OpResult T)
    (opU : ℕ → OpResult Unit) (minDelay : ℕ) (factor : ℚ) (n fuel : ℕ)
    (hn : 0 < n) :
    (RetryWithData op minDelay factor n fuel).invocations ≤ n + 1 ∧
    (Retry opU minDelay factor n fuel).invocations ≤ n + 1 := by
  constructor
  · exact backoffLoop_invocations_le _ factor n hn fuel 0 _ [] (by omega)
  · exact backoffLoop_invocations_le _ factor n hn fuel 0 _ [] (by omega)

/-- C10 witness: an always-failing operation with `maxTries = 2` and ten units of fuel
stays within three invocations. -/
theorem claim_C10_witness :
    (RetryWithData (T := Nat) (fun _ => OpResult.err (GoError.errorf "t"))
        1000 2 2 10).invocations ≤ 2 + 1 ∧
    (Retry (fun _ => OpResult.err (GoError.errorf "u")) 1000 2 2 10).invocations
        ≤ 2 + 1 :=
  claim_C10_bounded_invocations _ _ 1000 2 2 10 (by decide)

end Connection
